import Mathlib

/-!
Verification of the fuzzer-api request-expansion engine, job manager,
HTTP executor and persistence layer against their specification.

Python strings are modelled as `List Char`; the CPython string
primitives used by the source (`find`, `replace`, `count`, `split`,
`strip`, slicing) are embedded below with their exact semantics at the
call sites that occur in the source (all patterns passed to
`find`/`replace`/`count` are nonempty there).
-/

namespace FuzzerAPI

abbrev Str := List Char

def str (x : String) : Str := x.toList

/-- CPython `s.find(pat)` on a suffix: index of the first occurrence of
`pat` in `s`, if any. -/
def findSub (pat : Str) : Str → Option Nat
  | [] => if pat.isEmpty then some 0 else none
  | c :: rest =>
    if pat.isPrefixOf (c :: rest) then some 0
    else (findSub pat rest).map (· + 1)

/-- CPython `s.find(pat, start)`: first occurrence at index ≥ `start`. -/
def pyFind (s pat : Str) (start : Nat) : Option Nat :=
  (findSub pat (s.drop start)).map (· + start)

/-- Worker for `pyReplace`: `skip` counts characters still inside the
occurrence just replaced (they are consumed without being emitted). -/
def pyReplaceAux (pat repl : Str) : Str → Nat → Str
  | [], _ => []
  | _ :: rest, skip + 1 => pyReplaceAux pat repl rest skip
  | c :: rest, 0 =>
    if pat ≠ [] ∧ pat.isPrefixOf (c :: rest) then
      repl ++ pyReplaceAux pat repl rest (pat.length - 1)
    else c :: pyReplaceAux pat repl rest 0

/-- CPython `s.replace(pat, repl)` for nonempty `pat`: every
non-overlapping occurrence, scanning left to right, is replaced. -/
def pyReplace (pat repl s : Str) : Str := pyReplaceAux pat repl s 0

/-- Worker for `pyCount`, same skipping device as `pyReplaceAux`. -/
def pyCountAux (pat : Str) : Str → Nat → Nat
  | [], _ => 0
  | _ :: rest, skip + 1 => pyCountAux pat rest skip
  | c :: rest, 0 =>
    if pat ≠ [] ∧ pat.isPrefixOf (c :: rest) then
      1 + pyCountAux pat rest (pat.length - 1)
    else pyCountAux pat rest 0

/-- CPython `s.count(pat)` for nonempty `pat`: number of
non-overlapping occurrences, scanning left to right. -/
def pyCount (pat s : Str) : Nat := pyCountAux pat s 0

/-- `FuzzerEngine.sniper_attack` uses the fixed placeholder `<<>>`. -/
def placeholderToken : Str := str "<<>>"

/-- `PayloadSet` (main.py): a named ordered list of payloads. -/
structure PayloadSet where
  name : Str
  payloads : List Str
deriving DecidableEq, Repr

/-- One generated-request dict of `sniper_attack`. -/
structure SniperEntry where
  request : Str
  placeholder : Str
  payload : Str
  position : Nat
deriving DecidableEq, Repr

/-- The while loop inside `sniper_attack`: skip the first `k`
occurrences of `pat` (restarting the search one past each hit,
searching from `start`) and substitute `payload` at the next one; if
the search fails the template is returned unchanged. -/
def sniperSubstLoop (template pat payload : Str) : Nat → Nat → Str
  | 0, start =>
    match pyFind template pat start with
    | none => template
    | some pos => template.take pos ++ payload ++ template.drop (pos + pat.length)
  | k' + 1, start =>
    match pyFind template pat start with
    | none => template
    | some pos => sniperSubstLoop template pat payload k' (pos + 1)

/-- `FuzzerEngine.sniper_attack` (main.py).  `none` models the
`ValueError` raised when no payload set is given.  The `placeholders`
argument is accepted and ignored, as in the source. -/
def sniper_attack (template : Str) (_placeholders : List Str)
    (payload_sets : List PayloadSet) : Option (List SniperEntry) :=
  match payload_sets with
  | [] => none
  | payload_set :: _ =>
    let original := pyReplace placeholderToken [] template
    let n := pyCount placeholderToken template
    some (⟨original, str "original", [], 0⟩ ::
      payload_set.payloads.flatMap fun payload =>
        (List.range n).map fun position =>
          ⟨pyReplace placeholderToken []
              (sniperSubstLoop template placeholderToken payload position 0),
            placeholderToken, payload, position + 1⟩)

/-- Worker for `substOccurrences`. -/
def substOccAux (pat : Str) (f : Nat → Str) : Str → Nat → Nat → Str
  | [], _, _ => []
  | _ :: rest, skip + 1, k => substOccAux pat f rest skip k
  | c :: rest, 0, k =>
    if pat ≠ [] ∧ pat.isPrefixOf (c :: rest) then
      f k ++ substOccAux pat f rest (pat.length - 1) (k + 1)
    else c :: substOccAux pat f rest 0 k

/-- Replace the k-th occurrence of `pat` in `s` (non-overlapping,
scanning left to right over the original string) by `f k`.  This is the
specification-level reading of "substitute p at the j-th occurrence and
replace all other occurrences with the empty string". -/
def substOccurrences (pat : Str) (f : Nat → Str) (s : Str) : Str :=
  substOccAux pat f s 0 0

/-- The per-entry request string that the specification's wording for
Sniper prescribes: occurrence `j` of the template becomes the payload,
every other occurrence of the template becomes the empty string. -/
def sniperClaimedEntry (template payload : Str) (j : Nat) : Str :=
  substOccurrences placeholderToken
    (fun k => if k = j then payload else []) template

/-- The Sniper expansion exactly as the specification sentence reads,
entry by entry (compare with `sniper_attack`). -/
def sniper_attack_claimed (template : Str) (payload_sets : List PayloadSet) :
    Option (List SniperEntry) :=
  match payload_sets with
  | [] => none
  | payload_set :: _ =>
    let n := pyCount placeholderToken template
    some (⟨substOccurrences placeholderToken (fun _ => []) template,
        str "original", [], 0⟩ ::
      payload_set.payloads.flatMap fun payload =>
        (List.range n).map fun position =>
          ⟨sniperClaimedEntry template payload position,
            placeholderToken, payload, position + 1⟩)

/-- Clean form of the loop body: walk the string; a hit with counter 0
is substituted, a hit with a positive counter advances a single
character (the loop restarts its search one past each hit). -/
def spliceNth (pat payload : Str) : Str → Nat → Str
  | [], _ => []
  | c :: rest, k =>
    if pat ≠ [] ∧ pat.isPrefixOf (c :: rest) then
      match k with
      | 0 => payload ++ rest.drop (pat.length - 1)
      | k' + 1 => c :: spliceNth pat payload rest k'
    else c :: spliceNth pat payload rest k

/-- The `<<NAME>>` token built for a named placeholder. -/
def namedToken (name : Str) : Str := str "<<" ++ name ++ str ">>"

/-- One generated-request dict of `cluster_bomb_attack`: the seed row
carries the literal marker `original`; substitution rows carry the
placeholder→payload map (modelled as the insertion-ordered pair list;
the declared placeholder names are distinct in every caller). -/
structure ComboEntry where
  request : Str
  placeholder : Option Str
  payloads : List (Str × Str)
deriving DecidableEq, Repr

/-- `itertools.product` over a list of lists: tuples in lexicographic
order, the first coordinate varying slowest, the last fastest. -/
def pyProduct {α : Type} : List (List α) → List (List α)
  | [] => [[]]
  | l :: rest => l.flatMap fun x => (pyProduct rest).map fun c => x :: c

/-- The inner loop of the named strategies: replace every occurrence of
each `<<NAME>>` by its payload, in pair order. -/
def substPairs (template : Str) (pairs : List (Str × Str)) : Str :=
  pairs.foldl (fun acc pr => pyReplace (namedToken pr.1) pr.2 acc) template

/-- The seed row of the named strategies: every declared `<<NAME>>`
replaced by the empty string, in declaration order. -/
def removeNamed (template : Str) (placeholders : List Str) : Str :=
  placeholders.foldl (fun acc name => pyReplace (namedToken name) [] acc) template

/-- `FuzzerEngine.cluster_bomb_attack` (main.py).  `none` models the
`ValueError` raised when the payload-set count differs from the
placeholder count; otherwise the seed row is followed by one row per
element of the cross-product of the payload sets. -/
def cluster_bomb_attack (template : Str) (placeholders : List Str)
    (payload_sets : List PayloadSet) : Option (List ComboEntry) :=
  if payload_sets.length ≠ placeholders.length then none
  else
    some (⟨removeNamed template placeholders, some (str "original"), []⟩ ::
      (pyProduct (payload_sets.map (·.payloads))).map fun combo =>
        ⟨substPairs template (placeholders.zip combo), none, placeholders.zip combo⟩)

/-! ### Job manager and persistent store (job_manager.py, database.py) -/

/-- `JobStatus` (job_manager.py). -/
inductive JobStatus
  | pending
  | running
  | completed
  | failed
  | cancelled
deriving DecidableEq, Repr

/-- One in-memory result dict, restricted to the fields the claims
depend on: the request content and the transport error recorded in its
`http_response` (the success flag is `error is None`). -/
structure ResultRow where
  request : Str
  error : Option Str
deriving DecidableEq, Repr

/-- The in-memory `Job` dataclass (job_manager.py), restricted to the
fields the claims quantify over. -/
structure MemJob where
  id : Str
  name : Str
  status : JobStatus
  requestId : Nat
  errorMessage : Option Str
  results : List ResultRow
deriving DecidableEq, Repr

/-- A `jobs` table row (database.py `Job`). -/
structure DBJobRow where
  id : Str
  name : Str
  status : JobStatus
  fuzzerRequestId : Nat
  errorMessage : Option Str
deriving DecidableEq, Repr

/-- A `job_results` table row (database.py `JobResult`). -/
structure DBResultRow where
  jobId : Str
  requestNumber : Nat
  requestContent : Str
  success : Bool
deriving DecidableEq, Repr

/-- The state a `JobManager` instance acts on: the in-memory job table,
the running-task registry, and the persistent store.  Store sessions
are modelled on the happy path of every `try/except` (no storage
faults). -/
structure ManagerState where
  jobs : List MemJob
  runningTasks : List Str
  dbJobs : List DBJobRow
  dbResults : List DBResultRow
deriving DecidableEq, Repr

/-- In-place mutation of the job with the given id (Python mutates the
shared `Job` object under `_lock`). -/
def updateMemJob (jobs : List MemJob) (job_id : Str) (f : MemJob → MemJob) :
    List MemJob :=
  jobs.map fun j => if j.id == job_id then f j else j

/-- `DatabaseManager.update_job`: only the arguments passed a
non-`None` value are written — in particular, passing `None` for
`error_message` leaves the stored message unchanged. -/
def update_job (rows : List DBJobRow) (job_id : Str) (status : Option JobStatus)
    (error_message : Option Str) : List DBJobRow :=
  rows.map fun r =>
    if r.id == job_id then
      { r with
        status := status.getD r.status,
        errorMessage := match error_message with
          | some e => some e
          | none => r.errorMessage }
    else r

/-- `DatabaseManager.save_job_results`: one appended row per result,
numbered from 1 by list position; rows already stored for the job are
not touched. -/
def save_job_results (job_id : Str) (results : List ResultRow) : List DBResultRow :=
  results.enum.map fun pr => ⟨job_id, pr.1 + 1, pr.2.request, pr.2.error.isNone⟩

/-- `JobManager.cancel_job`: a present job is moved to CANCELLED
regardless of its current status; its running task (if any) is
cancelled and dropped; the store row is updated to CANCELLED. -/
def cancel_job (s : ManagerState) (job_id : Str) : Bool × ManagerState :=
  match s.jobs.find? (fun j => j.id == job_id) with
  | none => (false, s)
  | some _ =>
    (true,
      { s with
        runningTasks := s.runningTasks.filter fun t => ! (t == job_id),
        jobs := updateMemJob s.jobs job_id fun j =>
          { j with status := JobStatus.cancelled },
        dbJobs := update_job s.dbJobs job_id (some JobStatus.cancelled) none })

/-- `JobManager.resume_job`: only a CANCELLED or FAILED job resumes;
the in-memory job becomes PENDING with its error and results buffer
cleared; the store row gets status PENDING, its `error_message`
argument being `None` (and therefore kept). -/
def resume_job (s : ManagerState) (job_id : Str) : Bool × ManagerState :=
  match s.jobs.find? (fun j => j.id == job_id) with
  | none => (false, s)
  | some j =>
    if j.status = JobStatus.cancelled ∨ j.status = JobStatus.failed then
      (true,
        { s with
          jobs := updateMemJob s.jobs job_id fun x =>
            { x with status := JobStatus.pending, errorMessage := none,
                     results := [] },
          dbJobs := update_job s.dbJobs job_id (some JobStatus.pending) none })
    else (false, s)

/-- `JobManager.complete_job`: the job becomes FAILED when an error
message is given and COMPLETED otherwise; the results list is stored in
memory and, when non-empty, appended to the `job_results` table. -/
def complete_job (s : ManagerState) (job_id : Str) (results : List ResultRow)
    (error_message : Option Str) : Bool × ManagerState :=
  match s.jobs.find? (fun j => j.id == job_id) with
  | none => (false, s)
  | some _ =>
    let st := if error_message.isSome then JobStatus.failed else JobStatus.completed
    (true,
      { s with
        jobs := updateMemJob s.jobs job_id fun j =>
          { j with status := st, errorMessage := error_message,
                   results := results },
        dbJobs := update_job s.dbJobs job_id (some st) error_message,
        dbResults :=
          if results.isEmpty then s.dbResults
          else s.dbResults ++ save_job_results job_id results })

/-- The PENDING→RUNNING step driven by the scheduler:
`_execute_pending_job` skips jobs no longer PENDING, and
`execute_requests_job` then marks the job RUNNING in memory (no store
write happens at that point). -/
def scheduler_start_job (s : ManagerState) (job_id : Str) : ManagerState :=
  match s.jobs.find? (fun j => j.id == job_id) with
  | none => s
  | some j =>
    if j.status = JobStatus.pending then
      { s with
        jobs := updateMemJob s.jobs job_id fun x =>
          { x with status := JobStatus.running } }
    else s

/-- `JobManager.delete_job`: the job is removed from the in-memory
table only; the persistent rows are untouched. -/
def delete_job (s : ManagerState) (job_id : Str) : Bool × ManagerState :=
  if s.jobs.any (fun j => j.id == job_id) then
    (true, { s with jobs := s.jobs.filter fun j => ! (j.id == job_id) })
  else (false, s)

/-- `JobManager._restore_jobs_from_database`: every stored row is
rebuilt in memory with its stored status and error message unchanged
and an empty in-memory results buffer. -/
def restore_jobs (db_jobs : List DBJobRow) : List MemJob :=
  db_jobs.map fun r => ⟨r.id, r.name, r.status, r.fuzzerRequestId, r.errorMessage, []⟩

/-- `JobManager.__init__` on process start. -/
def managerStartup (db_jobs : List DBJobRow) (db_results : List DBResultRow) :
    ManagerState :=
  ⟨restore_jobs db_jobs, [], db_jobs, db_results⟩

/-- The background scheduler (`_start_job_processor`) selects exactly
the PENDING jobs of the in-memory table. -/
def pendingJobs (s : ManagerState) : List MemJob :=
  s.jobs.filter fun j => j.status == JobStatus.pending

/-- The statuses from which `resume_job` accepts a job. -/
def resumeEligible (j : MemJob) : Bool :=
  j.status == JobStatus.cancelled || j.status == JobStatus.failed

/-- `JobManager.get_all_jobs`: the in-memory jobs, followed by stored
jobs not found in memory (rebuilt exactly like on restore); memory-only
jobs are saved back to the store. -/
def get_all_jobs (s : ManagerState) : List MemJob × ManagerState :=
  let memory_jobs := s.jobs
  let missing := s.dbJobs.filter fun r => ! memory_jobs.any fun j => j.id == r.id
  let merged := memory_jobs ++ restore_jobs missing
  let newRows :=
    (memory_jobs.filter fun j => ! s.dbJobs.any fun r => r.id == j.id).map
      fun j => (⟨j.id, j.name, j.status, j.requestId, j.errorMessage⟩ : DBJobRow)
  (merged, { s with dbJobs := s.dbJobs ++ newRows })

/-- The transition diagram of spec §4.5. -/
def specEdge : JobStatus → JobStatus → Bool
  | JobStatus.pending, JobStatus.running => true
  | JobStatus.running, JobStatus.completed => true
  | JobStatus.running, JobStatus.failed => true
  | JobStatus.running, JobStatus.cancelled => true
  | JobStatus.pending, JobStatus.cancelled => true
  | JobStatus.cancelled, JobStatus.pending => true
  | JobStatus.failed, JobStatus.pending => true
  | _, _ => false

/-- A one-job manager state used by concrete runs: the job is PENDING
and present in both the memory table and the store. -/
def samplePendingState : ManagerState :=
  ⟨[⟨str "j", str "n", JobStatus.pending, 1, none, []⟩], [],
    [⟨str "j", str "n", JobStatus.pending, 1, none⟩], []⟩

/-- The in-memory job of `samplePendingState`. -/
def samplePendingJob : MemJob := ⟨str "j", str "n", JobStatus.pending, 1, none, []⟩

/-- A one-job state whose job already FAILED with one stored result. -/
def sampleFailedState : ManagerState :=
  ⟨[⟨str "j", str "n", JobStatus.failed, 1, some (str "boom"),
      [⟨str "GET /1", none⟩]⟩], [],
    [⟨str "j", str "n", JobStatus.failed, 1, some (str "boom")⟩],
    [⟨str "j", 1, str "GET /1", true⟩]⟩

/-- The in-memory job of `sampleFailedState`. -/
def sampleFailedJob : MemJob :=
  ⟨str "j", str "n", JobStatus.failed, 1, some (str "boom"), [⟨str "GET /1", none⟩]⟩

/-- Concrete run for the resume claim: the job fails after storing two
results, is resumed, and completes storing two results again. -/
def resumeRunS1 : ManagerState :=
  (complete_job samplePendingState (str "j")
    [⟨str "GET /1", none⟩, ⟨str "GET /2", none⟩] (some (str "boom"))).2

def resumeRunS2 : ManagerState := (resume_job resumeRunS1 (str "j")).2

def resumeRunS3 : ManagerState :=
  (complete_job resumeRunS2 (str "j")
    [⟨str "GET /1", none⟩, ⟨str "GET /2", none⟩] none).2

/-! ### HTTP executor (http_client.py) -/

/-- The characters CPython `str.strip()` removes (the ASCII ones; the
source never feeds other whitespace). -/
def isPySpace (c : Char) : Bool :=
  c == ' ' || c == '\t' || c == '\n' || c == '\r' || c == '\x0b' || c == '\x0c'

def pyStrip (s : Str) : Str :=
  ((s.dropWhile isPySpace).reverse.dropWhile isPySpace).reverse

def pyRstrip (s : Str) : Str :=
  (s.reverse.dropWhile isPySpace).reverse

/-- CPython `s.split(sep)` for a one-character separator: empty pieces
are kept and the result is never empty. -/
def pySplit (sep : Char) : Str → List Str
  | [] => [[]]
  | c :: rest =>
    if c = sep then [] :: pySplit sep rest
    else
      match pySplit sep rest with
      | [] => [[c]]
      | h :: t => (c :: h) :: t

def pyUpper (s : Str) : Str := s.map Char.toUpper

def pyLower (s : Str) : Str := s.map Char.toLower

/-- CPython `pat in s`. -/
def hasSubstr (s pat : Str) : Bool := (findSub pat s).isSome

/-- CPython `line.split(sep, 1)` (the call site guards on `sep in
line`; without the separator the pair is `(line, "")`). -/
def splitOnce (sep : Char) : Str → Str × Str
  | [] => ([], [])
  | c :: rest =>
    if c = sep then ([], rest)
    else
      let pr := splitOnce sep rest
      (c :: pr.1, pr.2)

/-- Split at the first occurrence: `(before, some after)`, or the whole
string and `none`. -/
def splitFirstOn (sep : Char) : Str → Str × Option Str
  | [] => ([], none)
  | c :: rest =>
    if c = sep then ([], some rest)
    else
      let pr := splitFirstOn sep rest
      (c :: pr.1, pr.2)

/-- `line.startswith((' ', '\t'))`. -/
def startsWithSpaceTab : Str → Bool
  | [] => false
  | c :: _ => c == ' ' || c == '\t'

/-- Python-dict assignment: an existing key keeps its position and gets
the new value; a new key is appended. -/
def dictInsert (hs : List (Str × Str)) (k v : Str) : List (Str × Str) :=
  match hs with
  | [] => [(k, v)]
  | (k0, v0) :: rest =>
    if k0 = k then (k0, v) :: rest else (k0, v0) :: dictInsert rest k v

/-- Python-dict `get` (exact, case-sensitive key). -/
def dictGet (hs : List (Str × Str)) (k : Str) : Option Str :=
  match hs with
  | [] => none
  | (k0, v0) :: rest => if k0 = k then some v0 else dictGet rest k

def dictGetD (hs : List (Str × Str)) (k d : Str) : Str := (dictGet hs k).getD d

/-- Flush a header whose continuation lines have all been absorbed. -/
def flushPending (pending : Option (Str × Str)) (hs : List (Str × Str)) :
    List (Str × Str) :=
  match pending with
  | some kv => dictInsert hs kv.1 kv.2
  | none => hs

/-- The header loop of `parse_http_request`: `i` is the absolute line
index, `pending` a header still absorbing continuation lines (raw lines
starting with space or tab).  Returns the header dict and `body_start`
— which stays 0, exactly as Python initialises it, when no blank line
is found. -/
def parseHeaderLines : List Str → Nat → Option (Str × Str) →
    List (Str × Str) → List (Str × Str) × Nat
  | [], _, pending, hs => (flushPending pending hs, 0)
  | l :: rest, i, pending, hs =>
    if startsWithSpaceTab l ∧ pending.isSome then
      match pending with
      | some kv =>
        parseHeaderLines rest (i + 1) (some (kv.1, kv.2 ++ ' ' :: pyStrip l)) hs
      | none => (hs, 0)
    else
      let hs2 := flushPending pending hs
      let line := pyStrip l
      if line = [] then (hs2, i + 1)
      else if line.contains ':' then
        parseHeaderLines rest (i + 1)
          (some (pyStrip (splitOnce ':' line).1, pyStrip (splitOnce ':' line).2)) hs2
      else parseHeaderLines rest (i + 1) none hs2

/-- The parsed request (`HTTPClient.parse_http_request`). -/
structure ParsedRequest where
  method : Str
  url : Str
  headers : List (Str × Str)
  body : Str
  version : Str
deriving DecidableEq, Repr

/-- `HTTPClient.parse_http_request`: `none` models the `ValueError`
raised on a request line with fewer than two space-separated parts.
The body is the lines after the first blank one joined with `\n`,
except that a multipart content type makes the body the raw text after
the first `\r\n\r\n` (or after the first `\n\n` with LF normalised to
CRLF, or the body lines joined with `\r\n`). -/
def parse_http_request (request_text : Str) : Option ParsedRequest :=
  let lines := pySplit '\n' (pyStrip request_text)
  match lines with
  | [] => none
  | first :: restLines =>
    match pySplit ' ' (pyStrip first) with
    | p0 :: p1 :: prest =>
      let hb := parseHeaderLines restLines 1 none []
      let body_lines := lines.drop hb.2
      let content_type := pyLower (dictGetD hb.1 (str "Content-Type") [])
      let body :=
        if hasSubstr content_type (str "multipart/form-data") then
          match findSub (str "\r\n\r\n") request_text with
          | some idx => request_text.drop (idx + 4)
          | none =>
            match findSub (str "\n\n") request_text with
            | some idx =>
              pyReplace (str "\n") (str "\r\n") (request_text.drop (idx + 2))
            | none => List.intercalate (str "\r\n") body_lines
        else List.intercalate (str "\n") body_lines
      some ⟨pyUpper p0, p1, hb.1, body, prest.headD (str "HTTP/1.1")⟩
    | _ => none

/-- `HTTPRequestConfig` (http_client.py) with its source defaults.
`request_delay` is a float in the source; it plays no part in any
claim and is carried as a rational. -/
structure HTTPRequestConfig where
  method : Str := str "GET"
  headers : Option (List (Str × Str)) := none
  timeout : Nat := 30
  follow_redirects : Bool := true
  verify_ssl : Bool := true
  scheme : Str := str "http"
  base_url : Str := str "localhost:8000"
  sequential_execution : Bool := false
  request_delay : ℚ := 0
deriving DecidableEq, Repr

/-- `urllib.parse` params handling: the last path segment loses
everything from its first `;` on (the source keeps only `.path`). -/
def dropParams (u : Str) : Str :=
  if u.contains '/' then
    let pr := splitFirstOn '/' u.reverse
    match pr.2 with
    | some revBefore => revBefore.reverse ++ '/' :: (splitFirstOn ';' pr.1.reverse).1
    | none => (splitFirstOn ';' u).1
  else (splitFirstOn ';' u).1

/-- The path+query+fragment string `send_request` rebuilds from an
absolute `http(s)://` target with `urlparse` (fragment split first,
then query; `?`/`#` re-attached only when nonempty). -/
def urlPathQueryFragment (url : Str) : Str :=
  let after := if (str "https://").isPrefixOf url then url.drop 8 else url.drop 7
  let netloc := after.takeWhile fun c => ! (c == '/' || c == '?' || c == '#')
  let rest := after.drop netloc.length
  let pf := splitFirstOn '#' rest
  let pq := splitFirstOn '?' pf.1
  let qpart :=
    match pq.2 with
    | some q => if q ≠ [] then '?' :: q else []
    | none => []
  let fpart :=
    match pf.2 with
    | some f => if f ≠ [] then '#' :: f else []
    | none => []
  dropParams pq.1 ++ qpart ++ fpart

/-- The `/`-prefixing applied to a relative target. -/
def ensureLeadingSlash (url : Str) : Str :=
  match url with
  | '/' :: _ => url
  | _ => '/' :: url

/-- URL resolution of `HTTPClient.send_request`: the host is always the
parsed `Host` header (falling back to `config.base_url` when absent or
empty); an absolute target contributes only its path, query and
fragment; a relative target is used literally, `/`-prefixed when
needed; the scheme is `config.scheme`. -/
def sendRequestUrl (request_text : Str) (config : HTTPRequestConfig) :
    Option Str :=
  (parse_http_request request_text).map fun parsed =>
    let host0 := dictGetD parsed.headers (str "Host") []
    let host_header := if host0 = [] then config.base_url else host0
    let path :=
      if (str "http://").isPrefixOf parsed.url ∨
          (str "https://").isPrefixOf parsed.url then
        urlPathQueryFragment parsed.url
      else ensureLeadingSlash parsed.url
    config.scheme ++ str "://" ++ host_header ++ path

/-- The amended host rule of §4.2: the `Host` header when present and
nonempty, otherwise `config.base_url` — never the absolute target's
authority. -/
def specHost (headers : List (Str × Str)) (config : HTTPRequestConfig) : Str :=
  match dictGet headers (str "Host") with
  | some v => if v = [] then config.base_url else v
  | none => config.base_url

def isAbsoluteHttpTarget (url : Str) : Bool :=
  (str "http://").isPrefixOf url || (str "https://").isPrefixOf url

/-- The amended path rule of §4.2. -/
def specPath (url : Str) : Str :=
  if isAbsoluteHttpTarget url then urlPathQueryFragment url
  else ensureLeadingSlash url

/-- Header assembly of `send_request`: configured headers first, parsed
headers next (`host`, `connection`, `content-length` dropped case-
insensitively), then a `Host` synthesized when absent in both exact
spellings. -/
def send_request_headers (parsed : ParsedRequest) (config : HTTPRequestConfig) :
    List (Str × Str) :=
  let host0 := dictGetD parsed.headers (str "Host") []
  let host_header := if host0 = [] then config.base_url else host0
  let merged := parsed.headers.foldl
    (fun acc kv =>
      if pyLower kv.1 = str "host" ∨ pyLower kv.1 = str "connection" ∨
          pyLower kv.1 = str "content-length" then acc
      else dictInsert acc kv.1 kv.2)
    (config.headers.getD [])
  if dictGet merged (str "Host") = none ∧ dictGet merged (str "host") = none then
    dictInsert merged (str "Host") host_header
  else merged

/-- `HTTPClient.ensure_multipart_body_format`: the boundary inspection
only logs; every path returns the body unchanged. -/
def ensure_multipart_body_format (body : Str) (content_type : Str) : Str :=
  if ¬ hasSubstr (pyLower content_type) (str "multipart/form-data") then body
  else body

/-- The data `send_request` hands to the transport when it takes the
multipart branch; `none` when the request does not parse, has no body
or a bodyless method, or carries another content type. -/
def multipartSentData (request_text : Str) (config : HTTPRequestConfig) :
    Option Str :=
  match parse_http_request request_text with
  | none => none
  | some parsed =>
    let headers := send_request_headers parsed config
    if parsed.body ≠ [] ∧ ¬ pyUpper parsed.method ∈ [str "GET", str "HEAD"] then
      let content_type := pyLower (dictGetD headers (str "Content-Type") [])
      if hasSubstr content_type (str "multipart/form-data") then
        some (ensure_multipart_body_format parsed.body content_type)
      else none
    else none

/-- The connector `HTTPClient.__aenter__` builds:
`aiohttp.TCPConnector(verify_ssl=False)`.  It receives no
configuration at all. -/
structure TCPConnectorModel where
  verify_ssl : Bool
deriving DecidableEq, Repr

def aenterConnector : TCPConnectorModel := ⟨false⟩

/-- The recognized keys of an `http_config` dict, each possibly absent
(`JobManager.execute_requests_job` reads them with `.get`). -/
structure HttpConfigDict where
  scheme : Option Str := none
  base_url : Option Str := none
  timeout : Option Nat := none
  follow_redirects : Option Bool := none
  verify_ssl : Option Bool := none
  additional_headers : Option (List (Str × Str)) := none
  sequential_execution : Option Bool := none
  request_delay : Option ℚ := none
deriving DecidableEq, Repr

/-- The config construction in `execute_requests_job`: a missing dict
keeps the dataclass defaults; a present dict is read key by key with
the fallbacks of the source (note that `verify_ssl` falls back to
`True` there as well). -/
def configFromDict (d : Option HttpConfigDict) : HTTPRequestConfig :=
  match d with
  | none => {}
  | some h =>
    { scheme := h.scheme.getD (str "http"),
      base_url := h.base_url.getD (str "localhost:8000"),
      timeout := h.timeout.getD 30,
      follow_redirects := h.follow_redirects.getD true,
      verify_ssl := h.verify_ssl.getD true,
      headers := h.additional_headers,
      sequential_execution := h.sequential_execution.getD false,
      request_delay := h.request_delay.getD 0 }

/-! ### Corpus store (database.py) -/

/-- A `fuzzer_requests` table row (only the key matters here). -/
structure FuzzerRequestRow where
  id : Nat
deriving DecidableEq, Repr

/-- A `generated_requests` table row. -/
structure GeneratedRequestRow where
  fuzzerRequestId : Nat
  requestNumber : Nat
  requestContent : Str
deriving DecidableEq, Repr

/-- The persistent tables `delete_fuzzer_request` can touch.  The ORM
declares `cascade="all, delete-orphan"` from `FuzzerRequest` to
`GeneratedRequest` only; `Job` rows hold a plain foreign key with no
relationship, and SQLite runs without foreign-key enforcement, so they
survive the delete. -/
structure CorpusDB where
  fuzzerRequests : List FuzzerRequestRow
  generatedRequests : List GeneratedRequestRow
  jobs : List DBJobRow
  jobResults : List DBResultRow
deriving DecidableEq, Repr

/-- `DatabaseManager.delete_fuzzer_request`: unconditional delete of a
present run together with (via the ORM cascade) its generated rows;
neither this function nor its API endpoint checks referencing jobs. -/
def delete_fuzzer_request (db : CorpusDB) (request_id : Nat) : Bool × CorpusDB :=
  if db.fuzzerRequests.any (fun r => r.id == request_id) then
    (true,
      { db with
        fuzzerRequests := db.fuzzerRequests.filter fun r => ! (r.id == request_id),
        generatedRequests :=
          db.generatedRequests.filter fun g => ! (g.fuzzerRequestId == request_id) })
  else (false, db)

/-- A store with one run, its generated row, and a RUNNING job
referencing it. -/
def sampleCorpusDB : CorpusDB :=
  ⟨[⟨1⟩], [⟨1, 1, str "GET /"⟩],
    [⟨str "j", str "n", JobStatus.running, 1, none⟩], []⟩

/-! ### Helper lemmas -/

theorem findSub_cons_pos {pat : Str} {c : Char} {rest : Str}
    (h : pat.isPrefixOf (c :: rest) = true) :
    findSub pat (c :: rest) = some 0 := by
  simp [findSub, h]

theorem findSub_cons_neg {pat : Str} {c : Char} {rest : Str}
    (h : ¬ pat.isPrefixOf (c :: rest) = true) :
    findSub pat (c :: rest) = (findSub pat rest).map (· + 1) := by
  simp [findSub, h]

theorem findSub_nil_of_ne {pat : Str} (h : pat ≠ []) :
    findSub pat [] = none := by
  cases pat with
  | nil => exact absurd rfl h
  | cons a as => simp [findSub, List.isEmpty]

theorem take_append_take_drop (t : Str) (a b : Nat) :
    t.take a ++ (t.drop a).take b = t.take (a + b) :=
  (List.take_add t a b).symm

theorem drop_drop_add (t : Str) (a b : Nat) :
    (t.drop a).drop b = t.drop (a + b) := by
  rw [List.drop_drop]

theorem spliceNth_of_findSub_none {pat payload : Str} :
    ∀ (s : Str) (k : Nat), findSub pat s = none → spliceNth pat payload s k = s := by
  intro s
  induction s with
  | nil => intro k _; rfl
  | cons c rest ih =>
    intro k hnone
    have hpre : ¬ pat.isPrefixOf (c :: rest) = true := by
      intro h
      rw [findSub_cons_pos h] at hnone
      exact Option.noConfusion hnone
    have hrest : findSub pat rest = none := by
      rw [findSub_cons_neg hpre] at hnone
      exact Option.map_eq_none.mp hnone
    simp [spliceNth, hpre, ih k hrest]

theorem spliceNth_zero_of_findSub {pat payload : Str} (hpat : pat ≠ []) :
    ∀ (s : Str) (q : Nat), findSub pat s = some q →
      spliceNth pat payload s 0 = s.take q ++ payload ++ s.drop (q + pat.length) := by
  intro s
  induction s with
  | nil => intro q h; rw [findSub_nil_of_ne hpat] at h; exact Option.noConfusion h
  | cons c rest ih =>
    intro q h
    by_cases hpre : pat.isPrefixOf (c :: rest) = true
    · rw [findSub_cons_pos hpre] at h
      obtain rfl : q = 0 := by injection h with h; omega
      obtain ⟨a, as, rfl⟩ : ∃ a as, pat = a :: as := by
        cases pat with
        | nil => exact absurd rfl hpat
        | cons a as => exact ⟨a, as, rfl⟩
      simp [spliceNth, hpre]
    · rw [findSub_cons_neg hpre] at h
      obtain ⟨q', hq', rfl⟩ : ∃ q', findSub pat rest = some q' ∧ q = q' + 1 := by
        cases hfr : findSub pat rest with
        | none => rw [hfr] at h; exact Option.noConfusion h
        | some v => rw [hfr] at h; injection h with h; exact ⟨v, rfl, h.symm⟩
      have harith : q' + 1 + pat.length = (q' + pat.length) + 1 := by omega
      simp [spliceNth, hpre, ih q' hq', harith]

theorem spliceNth_succ_of_findSub {pat payload : Str} (hpat : pat ≠ []) :
    ∀ (s : Str) (q k : Nat), findSub pat s = some q →
      spliceNth pat payload s (k + 1) =
        s.take (q + 1) ++ spliceNth pat payload (s.drop (q + 1)) k := by
  intro s
  induction s with
  | nil => intro q k h; rw [findSub_nil_of_ne hpat] at h; exact Option.noConfusion h
  | cons c rest ih =>
    intro q k h
    by_cases hpre : pat.isPrefixOf (c :: rest) = true
    · rw [findSub_cons_pos hpre] at h
      obtain rfl : q = 0 := by injection h with h; omega
      simp [spliceNth, hpre, hpat]
    · rw [findSub_cons_neg hpre] at h
      obtain ⟨q', hq', rfl⟩ : ∃ q', findSub pat rest = some q' ∧ q = q' + 1 := by
        cases hfr : findSub pat rest with
        | none => rw [hfr] at h; exact Option.noConfusion h
        | some v => rw [hfr] at h; injection h with h; exact ⟨v, rfl, h.symm⟩
      simp [spliceNth, hpre, ih q' k hq']

theorem sniperSubstLoop_eq {template pat payload : Str} (hpat : pat ≠ []) :
    ∀ (k start : Nat),
      sniperSubstLoop template pat payload k start =
        template.take start ++ spliceNth pat payload (template.drop start) k := by
  intro k
  induction k with
  | zero =>
    intro start
    cases hf : findSub pat (template.drop start) with
    | none =>
      have hpf : pyFind template pat start = none := by simp [pyFind, hf]
      rw [spliceNth_of_findSub_none _ _ hf, List.take_append_drop]
      simp only [sniperSubstLoop, hpf]
    | some q =>
      have hpf : pyFind template pat start = some (q + start) := by simp [pyFind, hf]
      simp only [sniperSubstLoop, hpf]
      rw [spliceNth_zero_of_findSub hpat _ _ hf]
      simp only [drop_drop_add, ← List.append_assoc, take_append_take_drop]
      have h2 : q + start + pat.length = start + (q + pat.length) := by omega
      have h1 : q + start = start + q := by omega
      rw [h2, h1]
  | succ k' ih =>
    intro start
    cases hf : findSub pat (template.drop start) with
    | none =>
      have hpf : pyFind template pat start = none := by simp [pyFind, hf]
      rw [spliceNth_of_findSub_none _ _ hf, List.take_append_drop]
      simp only [sniperSubstLoop, hpf]
    | some q =>
      have hpf : pyFind template pat start = some (q + start) := by simp [pyFind, hf]
      simp only [sniperSubstLoop, hpf]
      rw [ih (q + start + 1), spliceNth_succ_of_findSub hpat _ _ _ hf]
      simp only [drop_drop_add, ← List.append_assoc, take_append_take_drop]
      have h1 : q + start + 1 = start + (q + 1) := by omega
      rw [h1]

theorem sniperSubstLoop_start_zero (template payload : Str) (k : Nat) :
    sniperSubstLoop template placeholderToken payload k 0 =
      spliceNth placeholderToken payload template k := by
  have h := @sniperSubstLoop_eq template placeholderToken payload (by decide) k 0
  simpa using h

theorem length_flatMap_range_map {α : Type} (ps : List Str) (n : Nat)
    (g : Str → Nat → α) :
    (ps.flatMap fun p => (List.range n).map (g p)).length = ps.length * n := by
  induction ps with
  | nil => simp
  | cons p t ih => simp [List.flatMap_cons, ih, Nat.succ_mul, Nat.add_comm]

theorem sum_map_const {α : Type} (l : List α) (k : Nat) :
    (l.map fun _ => k).sum = l.length * k := by
  induction l with
  | nil => simp
  | cons a t ih => simp [ih, Nat.succ_mul, Nat.add_comm]

theorem pyProduct_length {α : Type} : ∀ ls : List (List α),
    (pyProduct ls).length = (ls.map List.length).prod := by
  intro ls
  induction ls with
  | nil => rfl
  | cons l rest ih =>
    simp only [pyProduct]
    rw [List.length_flatMap]
    have hconst : (List.length ∘ fun x => (pyProduct rest).map fun c => x :: c) =
        fun _ : α => (pyProduct rest).length := by
      funext x; simp
    rw [hconst, sum_map_const, ih]
    simp

theorem pyProduct_of_mem_nil {α : Type} : ∀ ls : List (List α),
    ([] : List α) ∈ ls → pyProduct ls = [] := by
  intro ls
  induction ls with
  | nil => intro h; exact absurd h (List.not_mem_nil _)
  | cons l rest ih =>
    intro h
    rcases List.mem_cons.mp h with rfl | hmem
    · rfl
    · simp [pyProduct, ih hmem]

theorem pyProduct_cons_getElem {α : Type} (ls : List (List α)) :
    ∀ (l : List α) (i j : Nat), j < (pyProduct ls).length →
      (pyProduct (l :: ls))[i * (pyProduct ls).length + j]? =
        (l[i]?).bind fun x => ((pyProduct ls)[j]?).map fun c => x :: c := by
  intro l
  induction l with
  | nil => intro i j hj; simp [pyProduct]
  | cons x xs ih =>
    intro i j hj
    have hstep : pyProduct ((x :: xs) :: ls) =
        (pyProduct ls).map (fun c => x :: c) ++ pyProduct (xs :: ls) := by
      simp [pyProduct]
    cases i with
    | zero =>
      rw [hstep]
      have hj2 : 0 * (pyProduct ls).length + j < ((pyProduct ls).map fun c => x :: c).length := by
        simpa using hj
      rw [List.getElem?_append_left hj2]
      simp
    | succ i' =>
      rw [hstep]
      have hge : ((pyProduct ls).map fun c => x :: c).length ≤
          (i' + 1) * (pyProduct ls).length + j := by
        simp [Nat.succ_mul]
        omega
      rw [List.getElem?_append_right hge]
      have harith : (i' + 1) * (pyProduct ls).length + j -
          ((pyProduct ls).map fun c => x :: c).length =
          i' * (pyProduct ls).length + j := by
        simp [Nat.succ_mul]
        omega
      rw [harith, ih i' j hj]
      simp

theorem find_updateMemJob (l : List MemJob) (job_id : Str) (f : MemJob → MemJob)
    (hf : ∀ j, (f j).id = j.id) :
    (updateMemJob l job_id f).find? (fun x => x.id == job_id) =
      (l.find? (fun x => x.id == job_id)).map f := by
  induction l with
  | nil => rfl
  | cons a t ih =>
    show List.find? (fun x => x.id == job_id)
        ((if (a.id == job_id) = true then f a else a) :: updateMemJob t job_id f) = _
    by_cases h : (a.id == job_id) = true
    · rw [if_pos h]
      have hfa : ((f a).id == job_id) = true := by rw [hf a]; exact h
      rw [List.find?_cons, List.find?_cons, hfa, h]
      rfl
    · rw [if_neg h]
      have hb : (a.id == job_id) = false := Bool.eq_false_iff.mpr h
      rw [List.find?_cons, List.find?_cons, hb]
      exact ih

theorem any_filter_not_self {α : Type} (l : List α) (p : α → Bool) :
    (l.filter fun a => ! p a).any p = false := by
  induction l with
  | nil => rfl
  | cons a t ih => by_cases h : p a <;> simp [List.filter_cons, h, ih]

theorem update_job_map_error (rows : List DBJobRow) (job_id : Str)
    (st : Option JobStatus) :
    (update_job rows job_id st none).map (·.errorMessage) =
      rows.map (·.errorMessage) := by
  simp only [update_job, List.map_map]
  refine List.map_congr_left fun r _ => ?_
  by_cases h : (r.id == job_id) = true <;> simp [Function.comp, h]

theorem enumFrom_numbers {α : Type} (l : List α) : ∀ n : Nat,
    ((List.enumFrom n l).map fun pr => pr.1 + 1) = List.range' (n + 1) l.length := by
  induction l with
  | nil => intro n; rfl
  | cons a t ih =>
    intro n
    simp only [List.enumFrom, List.map_cons, List.length_cons, List.range']
    rw [ih (n + 1)]

theorem save_job_results_numbers (job_id : Str) (results : List ResultRow) :
    (save_job_results job_id results).map (·.requestNumber) =
      List.range' 1 results.length := by
  have h : (save_job_results job_id results).map (·.requestNumber) =
      (List.enumFrom 0 results).map fun pr => pr.1 + 1 := by
    simp [save_job_results, List.enum, List.map_map, Function.comp]
  rw [h, enumFrom_numbers]

theorem restore_filter (p : MemJob → Bool) (q : DBJobRow → Bool)
    (hpq : ∀ r : DBJobRow,
      p ⟨r.id, r.name, r.status, r.fuzzerRequestId, r.errorMessage, []⟩ = q r) :
    ∀ l : List DBJobRow, (restore_jobs l).filter p = restore_jobs (l.filter q) := by
  intro l
  induction l with
  | nil => rfl
  | cons r t ih =>
    by_cases h : q r = true
    · simp only [restore_jobs, List.map_cons, List.filter_cons, hpq r, if_pos h]
      exact congrArg _ (by simpa [restore_jobs] using ih)
    · simp only [restore_jobs, List.map_cons, List.filter_cons, hpq r, if_neg h]
      simpa [restore_jobs] using ih

theorem any_restore_id (l : List DBJobRow) (t : Str) :
    (restore_jobs l).any (fun j => j.id == t) = l.any fun r => r.id == t := by
  induction l with
  | nil => rfl
  | cons r rest ih =>
    simp only [restore_jobs, List.map_cons, List.any_cons]
    exact congrArg (fun b => (r.id == t || b)) (by simpa [restore_jobs] using ih)

/-! ### Claim theorems -/

/-- C1 counterexample: for template `q=<<>>` and payload `<<>>` the
engine's substitution entry is `q=` — after splicing the payload, the
final replace-all also consumes the occurrence contributed by the
payload — whereas the claim's entry-wise description (the j-th
occurrence of the template replaced by the payload, all other
occurrences by the empty string) yields `q=<<>>`. -/
theorem sniper_payload_token_counterexample :
    sniper_attack (str "q=<<>>") [] [⟨str "s", [str "<<>>"]⟩] ≠
      sniper_attack_claimed (str "q=<<>>") [⟨str "s", [str "<<>>"]⟩] ∧
    (sniper_attack (str "q=<<>>") [] [⟨str "s", [str "<<>>"]⟩]).map
        (fun l => l.map (·.request)) = some [str "q=", str "q="] ∧
    (sniper_attack_claimed (str "q=<<>>") [⟨str "s", [str "<<>>"]⟩]).map
        (fun l => l.map (·.request)) = some [str "q=", str "q=<<>>"] :=
  ⟨by decide, by decide, by decide⟩

/-- C1 amended: for every template and non-empty payload-set list, the
Sniper expansion emits the seed entry (every `<<>>` removed) first,
then, for each payload p of the first set in order and each occurrence
position j in 0..N-1, one entry obtained by substituting p at the j-th
occurrence and then replacing every occurrence of `<<>>` remaining in
the resulting string (including any contributed by the payload) with
the empty string; the total is 1 + N·|S₀|, and the concrete
`q=<<>>&r=<<>>` example holds exactly as claimed. -/
theorem sniper_attack_amended (template : Str) (placeholders : List Str)
    (payload_set : PayloadSet) (rest : List PayloadSet) :
    sniper_attack template placeholders (payload_set :: rest) =
      some (⟨pyReplace placeholderToken [] template, str "original", [], 0⟩ ::
        payload_set.payloads.flatMap fun payload =>
          (List.range (pyCount placeholderToken template)).map fun j =>
            ⟨pyReplace placeholderToken []
                (spliceNth placeholderToken payload template j),
              placeholderToken, payload, j + 1⟩) ∧
    (sniper_attack template placeholders (payload_set :: rest)).map List.length =
      some (1 + payload_set.payloads.length * pyCount placeholderToken template) ∧
    (sniper_attack (str "q=<<>>&r=<<>>") [] [⟨str "s", [str "a", str "b"]⟩]).map
        (fun l => l.map (·.request)) =
      some [str "q=&r=", str "q=a&r=", str "q=&r=a", str "q=b&r=", str "q=&r=b"] := by
  refine ⟨?_, ?_, by decide⟩
  · simp only [sniper_attack, sniperSubstLoop_start_zero]
  · simp only [sniper_attack, Option.map, List.length_cons, length_flatMap_range_map]
    congr 1
    omega

/-- C5: the Cluster Bomb expansion errors exactly when the payload-set
count differs from the placeholder count; otherwise it emits the seed
row followed by the full cross-product of the payload sets (first
placeholder varying slowest — the indexing law on `pyProduct`), for a
total of 1 + ∏|S_i| rows; an empty payload set yields the seed row
only; and the `<<A>>-<<B>>` example produces the five claimed rows. -/
theorem cluster_bomb_attack_spec (template : Str) (placeholders : List Str)
    (payload_sets : List PayloadSet) :
    (cluster_bomb_attack template placeholders payload_sets = none ↔
      payload_sets.length ≠ placeholders.length) ∧
    (payload_sets.length = placeholders.length →
      cluster_bomb_attack template placeholders payload_sets =
        some (⟨removeNamed template placeholders, some (str "original"), []⟩ ::
          (pyProduct (payload_sets.map (·.payloads))).map fun combo =>
            ⟨substPairs template (placeholders.zip combo), none,
              placeholders.zip combo⟩) ∧
      (cluster_bomb_attack template placeholders payload_sets).map List.length =
        some (1 + (payload_sets.map fun ps => ps.payloads.length).prod)) ∧
    ((∃ ps ∈ payload_sets, ps.payloads = []) →
      payload_sets.length = placeholders.length →
      cluster_bomb_attack template placeholders payload_sets =
        some [⟨removeNamed template placeholders, some (str "original"), []⟩]) ∧
    (∀ (l : List Str) (ls : List (List Str)) (i j : Nat),
      j < (pyProduct ls).length →
      (pyProduct (l :: ls))[i * (pyProduct ls).length + j]? =
        (l[i]?).bind fun x => ((pyProduct ls)[j]?).map fun c => x :: c) ∧
    (cluster_bomb_attack (str "<<A>>-<<B>>") [str "A", str "B"]
        [⟨str "s1", [str "1", str "2"]⟩, ⟨str "s2", [str "x", str "y"]⟩]).map
        (fun l => l.map (·.request)) =
      some [str "-", str "1-x", str "1-y", str "2-x", str "2-y"] := by
  refine ⟨?_, ?_, ?_, fun l ls i j hj => pyProduct_cons_getElem ls l i j hj, by decide⟩
  · constructor
    · intro h hlen
      rw [cluster_bomb_attack, if_neg (by omega)] at h
      exact Option.noConfusion h
    · intro h
      rw [cluster_bomb_attack, if_pos h]
  · intro hlen
    constructor
    · rw [cluster_bomb_attack, if_neg (by omega)]
    · rw [cluster_bomb_attack, if_neg (by omega)]
      simp only [Option.map, List.length_cons, List.length_map, pyProduct_length,
        List.map_map]
      congr 1
      have : (payload_sets.map fun ps => ps.payloads.length) =
          payload_sets.map (List.length ∘ fun ps => ps.payloads) := rfl
      rw [this]
      omega
  · intro ⟨ps, hmem, hnil⟩ hlen
    rw [cluster_bomb_attack, if_neg (by omega)]
    have : pyProduct (payload_sets.map (·.payloads)) = [] :=
      pyProduct_of_mem_nil _ (by
        refine List.mem_map.mpr ⟨ps, hmem, ?_⟩
        exact hnil)
    rw [this]
    rfl

/-- Witness for `cluster_bomb_attack_spec`: the three hypothesis-guarded
conjuncts hold at concrete inputs. -/
theorem cluster_bomb_attack_spec_witness :
    (cluster_bomb_attack (str "<<A>>-<<B>>") [str "A", str "B"]
        [⟨str "s1", [str "1", str "2"]⟩, ⟨str "s2", [str "x", str "y"]⟩]).map
        List.length =
      some (1 + (([⟨str "s1", [str "1", str "2"]⟩, ⟨str "s2", [str "x", str "y"]⟩] :
        List PayloadSet).map fun ps => ps.payloads.length).prod) ∧
    cluster_bomb_attack (str "<<A>>-<<B>>") [str "A", str "B"]
        [⟨str "s1", []⟩, ⟨str "s2", [str "x"]⟩] =
      some [⟨removeNamed (str "<<A>>-<<B>>") [str "A", str "B"],
        some (str "original"), []⟩] ∧
    (pyProduct ([str "1"] :: [[str "x"]]))[0 * (pyProduct [[str "x"]]).length + 0]? =
      (([str "1"] : List Str)[0]?).bind fun x =>
        ((pyProduct [[str "x"]])[0]?).map fun c => x :: c :=
  ⟨((cluster_bomb_attack_spec (str "<<A>>-<<B>>") [str "A", str "B"]
      [⟨str "s1", [str "1", str "2"]⟩, ⟨str "s2", [str "x", str "y"]⟩]).2.1
        (by decide)).2,
    (cluster_bomb_attack_spec (str "<<A>>-<<B>>") [str "A", str "B"]
      [⟨str "s1", []⟩, ⟨str "s2", [str "x"]⟩]).2.2.1 (by decide) (by decide),
    (cluster_bomb_attack_spec (str "<<A>>-<<B>>") [str "A", str "B"]
      []).2.2.2.1 [str "1"] [[str "x"]] 0 0 (by decide)⟩

/-- C2 counterexample: a job already COMPLETED is moved to CANCELLED by
a cancel request — `(completed, cancelled)` is not an edge of the §4.5
state machine. -/
theorem cancel_terminal_counterexample :
    (cancel_job ⟨[⟨str "j", str "n", JobStatus.completed, 1, none, []⟩],
        [], [], []⟩ (str "j")).1 = true ∧
    ((cancel_job ⟨[⟨str "j", str "n", JobStatus.completed, 1, none, []⟩],
        [], [], []⟩ (str "j")).2.jobs.map (·.status)) = [JobStatus.cancelled] ∧
    specEdge JobStatus.completed JobStatus.cancelled = false :=
  ⟨by decide, by decide, by decide⟩

/-- C2 amended: resume only moves CANCELLED/FAILED jobs to PENDING and
the scheduler only moves PENDING jobs to RUNNING — both along §4.5
edges — but a cancel request moves a present job to CANCELLED from any
current status, terminal states included. -/
theorem job_transitions_amended (s : ManagerState) (job_id : Str) (j : MemJob)
    (hmem : s.jobs.find? (fun x => x.id == job_id) = some j) :
    ((cancel_job s job_id).1 = true ∧
      (cancel_job s job_id).2.jobs.find? (fun x => x.id == job_id) =
        some { j with status := JobStatus.cancelled }) ∧
    ((resume_job s job_id).1 = true ↔
      (j.status = JobStatus.cancelled ∨ j.status = JobStatus.failed)) ∧
    ((resume_job s job_id).1 = true →
      (resume_job s job_id).2.jobs.find? (fun x => x.id == job_id) =
        some { j with status := JobStatus.pending, errorMessage := none, results := [] } ∧
      specEdge j.status JobStatus.pending = true) ∧
    (j.status = JobStatus.pending →
      (scheduler_start_job s job_id).jobs.find? (fun x => x.id == job_id) =
        some { j with status := JobStatus.running } ∧
      specEdge j.status JobStatus.running = true) ∧
    (j.status ≠ JobStatus.pending → scheduler_start_job s job_id = s) := by
  refine ⟨⟨?_, ?_⟩, ?_, ?_, ?_, ?_⟩
  · simp only [cancel_job, hmem]
  · simp only [cancel_job, hmem]
    rw [find_updateMemJob s.jobs job_id
      (fun x => { x with status := JobStatus.cancelled }) (fun x => rfl), hmem]
    rfl
  · simp only [resume_job, hmem]
    by_cases hst : j.status = JobStatus.cancelled ∨ j.status = JobStatus.failed <;>
      simp [hst]
  · intro hres
    have hst : j.status = JobStatus.cancelled ∨ j.status = JobStatus.failed := by
      by_contra hc
      simp only [resume_job, hmem, if_neg hc] at hres
      exact Bool.noConfusion hres
    constructor
    · simp only [resume_job, hmem, if_pos hst]
      rw [find_updateMemJob s.jobs job_id
        (fun x => { x with status := JobStatus.pending, errorMessage := none, results := [] })
        (fun x => rfl), hmem]
      rfl
    · rcases hst with h | h <;> rw [h] <;> rfl
  · intro hp
    constructor
    · simp only [scheduler_start_job, hmem, if_pos hp]
      rw [find_updateMemJob s.jobs job_id
        (fun x => { x with status := JobStatus.running }) (fun x => rfl), hmem]
      rfl
    · rw [hp]; rfl
  · intro hp
    simp only [scheduler_start_job, hmem, if_neg hp]

/-- Witness for `job_transitions_amended` at `samplePendingState`. -/
theorem job_transitions_amended_witness :
    ((cancel_job samplePendingState (str "j")).1 = true ∧
      (cancel_job samplePendingState (str "j")).2.jobs.find?
          (fun x => x.id == str "j") =
        some { samplePendingJob with status := JobStatus.cancelled }) ∧
    ((resume_job samplePendingState (str "j")).1 = true ↔
      (samplePendingJob.status = JobStatus.cancelled ∨
        samplePendingJob.status = JobStatus.failed)) ∧
    ((resume_job samplePendingState (str "j")).1 = true →
      (resume_job samplePendingState (str "j")).2.jobs.find?
          (fun x => x.id == str "j") =
        some ⟨str "j", str "n", JobStatus.pending, 1, none, []⟩ ∧
      specEdge samplePendingJob.status JobStatus.pending = true) ∧
    (samplePendingJob.status = JobStatus.pending →
      (scheduler_start_job samplePendingState (str "j")).jobs.find?
          (fun x => x.id == str "j") =
        some { samplePendingJob with status := JobStatus.running } ∧
      specEdge samplePendingJob.status JobStatus.running = true) ∧
    (samplePendingJob.status ≠ JobStatus.pending →
      scheduler_start_job samplePendingState (str "j") = samplePendingState) :=
  job_transitions_amended samplePendingState (str "j") samplePendingJob (by decide)

/-- C3 counterexample: a job stored as RUNNING is restored as RUNNING
with no synthetic "interrupted" message — not as FAILED — and it is
neither scheduler-eligible nor resume-eligible afterwards. -/
theorem restore_running_counterexample :
    (restore_jobs [⟨str "j", str "n", JobStatus.running, 1, none⟩]).map (·.status) =
      [JobStatus.running] ∧
    ¬ ((restore_jobs [⟨str "j", str "n", JobStatus.running, 1, none⟩]).map
        (·.status) = [JobStatus.failed]) ∧
    (restore_jobs [⟨str "j", str "n", JobStatus.running, 1, none⟩]).map
        (·.errorMessage) = [none] ∧
    pendingJobs (managerStartup [⟨str "j", str "n", JobStatus.running, 1, none⟩] [])
      = [] ∧
    (restore_jobs [⟨str "j", str "n", JobStatus.running, 1, none⟩]).map
        resumeEligible = [false] :=
  ⟨by decide, by decide, by decide, by decide, by decide⟩

/-- C3 amended: on process start every stored job is reconstituted with
its stored status and error message unchanged and an empty results
buffer; exactly the PENDING rows are scheduler-eligible and exactly the
CANCELLED/FAILED rows are resume-eligible, so a job stored as RUNNING
is neither rerun nor resumable. -/
theorem restore_jobs_amended (db_jobs : List DBJobRow)
    (db_results : List DBResultRow) :
    (managerStartup db_jobs db_results).jobs.map
        (fun j => (j.id, j.status, j.errorMessage, j.results)) =
      db_jobs.map (fun r => (r.id, r.status, r.errorMessage,
        ([] : List ResultRow))) ∧
    pendingJobs (managerStartup db_jobs db_results) =
      restore_jobs (db_jobs.filter fun r => r.status == JobStatus.pending) ∧
    (managerStartup db_jobs db_results).jobs.filter resumeEligible =
      restore_jobs (db_jobs.filter fun r =>
        r.status == JobStatus.cancelled || r.status == JobStatus.failed) := by
  refine ⟨?_, ?_, ?_⟩
  · simp [managerStartup, restore_jobs, List.map_map, Function.comp]
  · exact restore_filter _ _ (fun r => rfl) db_jobs
  · exact restore_filter _ _ (fun r => rfl) db_jobs

/-- C4 counterexample: the job of `samplePendingState` fails after two
stored results, resumes (the in-memory buffer is cleared), and
completes again — the `job_results` rows for the job then carry the
ordinals 1, 2, 1, 2: the first attempt's rows were never discarded. -/
theorem resume_leftover_results_counterexample :
    (resume_job resumeRunS1 (str "j")).1 = true ∧
    resumeRunS2.jobs.map (·.results) = [[]] ∧
    (resumeRunS3.dbResults.filter (fun r => r.jobId == str "j")).map
        (·.requestNumber) = [1, 2, 1, 2] ∧
    ¬ ((resumeRunS3.dbResults.filter (fun r => r.jobId == str "j")).map
        (·.requestNumber) = [1, 2]) :=
  ⟨by decide, by decide, by decide, by decide⟩

/-- C4 amended: resume succeeds exactly from CANCELLED or FAILED and
then sets the in-memory job to PENDING with its error message and
results buffer cleared; but the persisted `job_results` rows and the
persisted error message are left untouched, and a later completion
appends rows numbered again from 1 next to the old ones. -/
theorem resume_job_amended (s : ManagerState) (job_id : Str) (j : MemJob)
    (hmem : s.jobs.find? (fun x => x.id == job_id) = some j) :
    ((resume_job s job_id).1 = true ↔
      (j.status = JobStatus.cancelled ∨ j.status = JobStatus.failed)) ∧
    ((resume_job s job_id).1 = true →
      (resume_job s job_id).2.jobs.find? (fun x => x.id == job_id) =
        some { j with status := JobStatus.pending, errorMessage := none, results := [] }) ∧
    (resume_job s job_id).2.dbResults = s.dbResults ∧
    (resume_job s job_id).2.dbJobs.map (·.errorMessage) =
      s.dbJobs.map (·.errorMessage) ∧
    (∀ results : List ResultRow,
      (save_job_results job_id results).map (·.requestNumber) =
        List.range' 1 results.length) := by
  refine ⟨?_, ?_, ?_, ?_, fun results => save_job_results_numbers job_id results⟩
  · simp only [resume_job, hmem]
    by_cases hst : j.status = JobStatus.cancelled ∨ j.status = JobStatus.failed <;>
      simp [hst]
  · intro hres
    have hst : j.status = JobStatus.cancelled ∨ j.status = JobStatus.failed := by
      by_contra hc
      simp only [resume_job, hmem, if_neg hc] at hres
      exact Bool.noConfusion hres
    simp only [resume_job, hmem, if_pos hst]
    rw [find_updateMemJob s.jobs job_id
      (fun x => { x with status := JobStatus.pending, errorMessage := none, results := [] })
      (fun x => rfl), hmem]
    rfl
  · simp only [resume_job, hmem]
    by_cases hst : j.status = JobStatus.cancelled ∨ j.status = JobStatus.failed <;>
      simp [hst]
  · simp only [resume_job, hmem]
    by_cases hst : j.status = JobStatus.cancelled ∨ j.status = JobStatus.failed <;>
      simp [hst, update_job_map_error]

/-- Witness for `resume_job_amended` at `sampleFailedState`. -/
theorem resume_job_amended_witness :
    ((resume_job sampleFailedState (str "j")).1 = true ↔
      (sampleFailedJob.status = JobStatus.cancelled ∨
        sampleFailedJob.status = JobStatus.failed)) ∧
    ((resume_job sampleFailedState (str "j")).1 = true →
      (resume_job sampleFailedState (str "j")).2.jobs.find?
          (fun x => x.id == str "j") =
        some ⟨str "j", str "n", JobStatus.pending, 1, none, []⟩) ∧
    (resume_job sampleFailedState (str "j")).2.dbResults =
      sampleFailedState.dbResults ∧
    (resume_job sampleFailedState (str "j")).2.dbJobs.map (·.errorMessage) =
      sampleFailedState.dbJobs.map (·.errorMessage) ∧
    (∀ results : List ResultRow,
      (save_job_results (str "j") results).map (·.requestNumber) =
        List.range' 1 results.length) :=
  resume_job_amended sampleFailedState (str "j") sampleFailedJob (by decide)

/-- C10: `delete_job` only removes the job from the in-memory table
(returning false when the id is absent there), leaves the persisted Job
and JobResult rows unchanged, and the job reappears in the result of a
subsequent `get_all_jobs`, which merges stored jobs back. -/
theorem delete_job_memory_only (s : ManagerState) (job_id : Str)
    (hmem : s.jobs.any (fun x => x.id == job_id) = true)
    (hdb : s.dbJobs.any (fun r => r.id == job_id) = true) :
    (delete_job s job_id).1 = true ∧
    (delete_job s job_id).2.jobs.any (fun x => x.id == job_id) = false ∧
    (delete_job s job_id).2.dbJobs = s.dbJobs ∧
    (delete_job s job_id).2.dbResults = s.dbResults ∧
    ((get_all_jobs (delete_job s job_id).2).1.any fun x => x.id == job_id) = true ∧
    (∀ t : Str, s.jobs.any (fun x => x.id == t) = false →
      delete_job s t = (false, s)) := by
  refine ⟨?_, ?_, ?_, ?_, ?_, ?_⟩
  · simp only [delete_job, if_pos hmem]
  · simp only [delete_job, if_pos hmem]
    exact any_filter_not_self s.jobs fun x => x.id == job_id
  · simp only [delete_job, if_pos hmem]
  · simp only [delete_job, if_pos hmem]
  · simp only [delete_job, if_pos hmem, get_all_jobs, List.any_append]
    rw [any_restore_id]
    obtain ⟨r, hr, hrid⟩ := List.any_eq_true.mp hdb
    have hreq : r.id = job_id := by simpa using hrid
    have hnone :
        ((s.jobs.filter fun x => ! (x.id == job_id)).any fun j => j.id == r.id) =
          false := by
      rw [hreq]
      exact any_filter_not_self s.jobs fun x => x.id == job_id
    have hsecond :
        ((s.dbJobs.filter fun r2 =>
            ! ((s.jobs.filter fun x => ! (x.id == job_id)).any
              fun j => j.id == r2.id)).any fun r2 => r2.id == job_id) = true :=
      List.any_eq_true.mpr ⟨r, List.mem_filter.mpr ⟨hr, by rw [hnone]; rfl⟩, hrid⟩
    rw [hsecond, Bool.or_true]
  · intro t ht
    simp only [delete_job, ht]
    rfl

/-- Witness for `delete_job_memory_only` at `samplePendingState`. -/
theorem delete_job_memory_only_witness :
    (delete_job samplePendingState (str "j")).1 = true ∧
    (delete_job samplePendingState (str "j")).2.jobs.any
        (fun x => x.id == str "j") = false ∧
    (delete_job samplePendingState (str "j")).2.dbJobs =
      samplePendingState.dbJobs ∧
    (delete_job samplePendingState (str "j")).2.dbResults =
      samplePendingState.dbResults ∧
    ((get_all_jobs (delete_job samplePendingState (str "j")).2).1.any
      fun x => x.id == str "j") = true ∧
    (∀ t : Str, samplePendingState.jobs.any (fun x => x.id == t) = false →
      delete_job samplePendingState t = (false, samplePendingState)) :=
  delete_job_memory_only samplePendingState (str "j") (by decide) (by decide)

/-- C6 counterexample: with an absolute target `http://evil.example/…`
and a `Host: good.example` header, the emitted URL's host is
`good.example` — the code never takes the host from the resolved
absolute URL. -/
theorem absolute_target_host_counterexample :
    sendRequestUrl
        (str "GET http://evil.example/p?x=1 HTTP/1.1\nHost: good.example") {} =
      some (str "http://good.example/p?x=1") ∧
    sendRequestUrl
        (str "GET http://evil.example/p?x=1 HTTP/1.1\nHost: good.example") {} ≠
      some (str "http://evil.example/p?x=1") :=
  ⟨by decide, by decide⟩

/-- C6 amended: for every request that parses, the emitted URL is
`config.scheme ++ "://" ++ H ++ P` where H is the parsed `Host` header
— or, when that is absent or empty, `config.base_url` — regardless of
whether the target is absolute, and P is the absolute target's
path+query+fragment or the literal target `/`-prefixed. -/
theorem send_request_url_amended (request_text : Str)
    (config : HTTPRequestConfig) (parsed : ParsedRequest)
    (h : parse_http_request request_text = some parsed) :
    sendRequestUrl request_text config =
      some (config.scheme ++ str "://" ++ specHost parsed.headers config ++
        specPath parsed.url) := by
  have hhost :
      (if dictGetD parsed.headers (str "Host") [] = [] then config.base_url
        else dictGetD parsed.headers (str "Host") []) =
        specHost parsed.headers config := by
    cases hg : dictGet parsed.headers (str "Host") <;>
      simp [specHost, dictGetD, hg]
  have hpath :
      (if (str "http://").isPrefixOf parsed.url ∨
          (str "https://").isPrefixOf parsed.url then
        urlPathQueryFragment parsed.url
      else ensureLeadingSlash parsed.url) = specPath parsed.url := by
    by_cases h1 : (str "http://").isPrefixOf parsed.url = true <;>
      by_cases h2 : (str "https://").isPrefixOf parsed.url = true <;>
      simp [specPath, isAbsoluteHttpTarget, h1, h2]
  simp only [sendRequestUrl, h, Option.map, hhost, hpath]

/-- Witness for `send_request_url_amended` on a relative-target
request with a `Host` header. -/
theorem send_request_url_amended_witness :
    sendRequestUrl (str "GET /a HTTP/1.1\nHost: h.example") {} =
      some (({} : HTTPRequestConfig).scheme ++ str "://" ++
        specHost [(str "Host", str "h.example")] {} ++ specPath (str "/a")) :=
  send_request_url_amended (str "GET /a HTTP/1.1\nHost: h.example") {}
    ⟨str "GET", str "/a", [(str "Host", str "h.example")],
      str "GET /a HTTP/1.1\nHost: h.example", str "HTTP/1.1"⟩ (by decide)

/-- C7 counterexample: a multipart body whose trailing token is `--X`
(not `--X--`) is sent unchanged — the claimed rewrite to the closing
form never happens. -/
theorem multipart_trailing_counterexample :
    multipartSentData
        (str "POST /u HTTP/1.1\r\nContent-Type: multipart/form-data; boundary=X\r\n\r\n--X\r\nA\r\n--X")
        {} = some (str "--X\r\nA\r\n--X") ∧
    (str "--X").isSuffixOf (pyRstrip (str "--X\r\nA\r\n--X")) = true ∧
    (str "--X--").isSuffixOf (pyRstrip (str "--X\r\nA\r\n--X")) = false ∧
    multipartSentData
        (str "POST /u HTTP/1.1\r\nContent-Type: multipart/form-data; boundary=X\r\n\r\n--X\r\nA\r\n--X")
        {} ≠ some (str "--X\r\nA\r\n--X--") :=
  ⟨by decide, by decide, by decide, by decide⟩

/-- C7 amended: in the multipart branch the transport receives exactly
the parser's extracted body: `ensure_multipart_body_format` returns its
input on every path, so neither the boundary nor the trailing token is
ever rewritten. -/
theorem multipart_body_amended (request_text : Str)
    (config : HTTPRequestConfig) (parsed : ParsedRequest)
    (h : parse_http_request request_text = some parsed) :
    (∀ d, multipartSentData request_text config = some d → d = parsed.body) ∧
    (∀ body ct : Str, ensure_multipart_body_format body ct = body) := by
  have hens : ∀ body ct : Str, ensure_multipart_body_format body ct = body := by
    intro body ct
    rw [ensure_multipart_body_format]
    split <;> rfl
  refine ⟨?_, hens⟩
  intro d hd
  simp only [multipartSentData, h, hens] at hd
  split at hd
  · split at hd
    · exact (Option.some.injEq _ _ ▸ hd).symm
    · exact Option.noConfusion hd
  · exact Option.noConfusion hd

/-- Witness for `multipart_body_amended` on a concrete multipart
request. -/
theorem multipart_body_amended_witness :
    str "--X\r\nA\r\n--X" =
      (⟨str "POST", str "/u",
        [(str "Content-Type", str "multipart/form-data; boundary=X")],
        str "--X\r\nA\r\n--X", str "HTTP/1.1"⟩ : ParsedRequest).body :=
  (multipart_body_amended
    (str "POST /u HTTP/1.1\r\nContent-Type: multipart/form-data; boundary=X\r\n\r\n--X\r\nA\r\n--X")
    {}
    ⟨str "POST", str "/u",
      [(str "Content-Type", str "multipart/form-data; boundary=X")],
      str "--X\r\nA\r\n--X", str "HTTP/1.1"⟩ (by decide)).1
    (str "--X\r\nA\r\n--X") (by decide)

/-- C8 counterexample: the dataclass default of `verify_ssl` is `true`,
not `false`, and the connector disables certificate validation even
under `verify_ssl = true`, so validation is not disabled exactly when
the setting is false. -/
theorem verify_ssl_default_counterexample :
    ({} : HTTPRequestConfig).verify_ssl = true ∧
    ¬ (({} : HTTPRequestConfig).verify_ssl = false) ∧
    aenterConnector.verify_ssl = false ∧
    ¬ (aenterConnector.verify_ssl = false ↔
        ({ verify_ssl := true } : HTTPRequestConfig).verify_ssl = false) :=
  ⟨rfl, by decide, rfl, by decide⟩

/-- C8 amended: `verify_ssl` defaults to `true`, both as the dataclass
default and as the job manager's fallback for an absent key, and the
connector built by `__aenter__` carries `verify_ssl = false`
unconditionally: certificate validation is disabled for every request
regardless of the effective setting. -/
theorem verify_ssl_amended (d : Option HttpConfigDict) :
    ({} : HTTPRequestConfig).verify_ssl = true ∧
    (configFromDict none).verify_ssl = true ∧
    (configFromDict d).verify_ssl =
      (match d with
       | none => true
       | some h => h.verify_ssl.getD true) ∧
    aenterConnector.verify_ssl = false := by
  refine ⟨rfl, rfl, ?_, rfl⟩
  cases d <;> rfl

/-- C9 counterexample: a CorpusRun referenced by a RUNNING job is
deleted anyway, and the Job row survives the delete. -/
theorem delete_run_active_job_counterexample :
    (delete_fuzzer_request sampleCorpusDB 1).1 = true ∧
    (delete_fuzzer_request sampleCorpusDB 1).2.fuzzerRequests = [] ∧
    (delete_fuzzer_request sampleCorpusDB 1).2.generatedRequests = [] ∧
    (delete_fuzzer_request sampleCorpusDB 1).2.jobs =
      [⟨str "j", str "n", JobStatus.running, 1, none⟩] :=
  ⟨by decide, by decide, by decide, by decide⟩

/-- C9 amended: deleting a present CorpusRun always succeeds — even
while a referencing Job is in a non-terminal state — removes the run
and all of its GeneratedRequest rows, and cascades to nothing else:
Jobs referencing the run and their JobResults are left in place. -/
theorem delete_fuzzer_request_amended (db : CorpusDB) (request_id : Nat)
    (j : DBJobRow) (hj : j ∈ db.jobs) (href : j.fuzzerRequestId = request_id)
    (hnt : j.status = JobStatus.pending ∨ j.status = JobStatus.running)
    (hrun : db.fuzzerRequests.any (fun r => r.id == request_id) = true) :
    (delete_fuzzer_request db request_id).1 = true ∧
    (delete_fuzzer_request db request_id).2.fuzzerRequests.any
      (fun r => r.id == request_id) = false ∧
    (delete_fuzzer_request db request_id).2.generatedRequests.any
      (fun g => g.fuzzerRequestId == request_id) = false ∧
    (delete_fuzzer_request db request_id).2.jobs = db.jobs ∧
    (delete_fuzzer_request db request_id).2.jobResults = db.jobResults ∧
    j ∈ (delete_fuzzer_request db request_id).2.jobs := by
  refine ⟨?_, ?_, ?_, ?_, ?_, ?_⟩
  · simp [delete_fuzzer_request, hrun]
  · simp only [delete_fuzzer_request, if_pos hrun]
    exact any_filter_not_self _ _
  · simp only [delete_fuzzer_request, if_pos hrun]
    exact any_filter_not_self _ _
  · simp [delete_fuzzer_request, hrun]
  · simp [delete_fuzzer_request, hrun]
  · simp only [delete_fuzzer_request, if_pos hrun]
    exact hj

/-- Witness for `delete_fuzzer_request_amended` at `sampleCorpusDB`. -/
theorem delete_fuzzer_request_amended_witness :
    (delete_fuzzer_request sampleCorpusDB 1).1 = true ∧
    (delete_fuzzer_request sampleCorpusDB 1).2.fuzzerRequests.any
      (fun r => r.id == 1) = false ∧
    (delete_fuzzer_request sampleCorpusDB 1).2.generatedRequests.any
      (fun g => g.fuzzerRequestId == 1) = false ∧
    (delete_fuzzer_request sampleCorpusDB 1).2.jobs = sampleCorpusDB.jobs ∧
    (delete_fuzzer_request sampleCorpusDB 1).2.jobResults =
      sampleCorpusDB.jobResults ∧
    (⟨str "j", str "n", JobStatus.running, 1, none⟩ : DBJobRow) ∈
      (delete_fuzzer_request sampleCorpusDB 1).2.jobs :=
  delete_fuzzer_request_amended sampleCorpusDB 1
    ⟨str "j", str "n", JobStatus.running, 1, none⟩
    (by decide) (by decide) (Or.inr (by decide)) (by decide)

end FuzzerAPI
